import Mathlib

/-
Verification of the comparison-artifact cache and library-index synchronization
subsystem of the Sino-US-Pulse repository. The definitions below are a shallow
embedding of src/services/geminiService.ts (string normalization, library index
management, listing, artifact reads, and the orchestrator fetchComparisonData),
together with the data shapes from src/types.ts. External I/O (HTTP fetches,
object-store operations, the generation backend) is passed in explicitly as
outcome values, so every function is a pure, executable Lean definition.
-/

namespace SinoPulse

/-! ## JavaScript string primitives used by the service -/

/-- Character class matched by the JavaScript regular expression class backslash-s
(whitespace), as used by trim and by the whitespace-collapsing replace. -/
def jsWs (c : Char) : Bool :=
  let n := c.toNat
  n == 0x20 || n == 0x09 || n == 0x0a || n == 0x0b || n == 0x0c || n == 0x0d ||
  n == 0xa0 || n == 0x1680 || (0x2000 ≤ n && n ≤ 0x200a) || n == 0x2028 ||
  n == 0x2029 || n == 0x202f || n == 0x205f || n == 0x3000 || n == 0xfeff

/-- JavaScript String.prototype.trim: strip whitespace from both ends. -/
def jsTrim (l : List Char) : List Char :=
  ((l.dropWhile jsWs).reverse.dropWhile jsWs).reverse

/-- Replace every maximal run of characters satisfying p by a single sep
character, as the global regex replace of a one-class-plus pattern does.
The boolean argument records whether the previous character was in a run. -/
def collapseRunsAux (p : Char → Bool) (sep : Char) : List Char → Bool → List Char
  | [], _ => []
  | c :: rest, inRun =>
    if p c then
      if inRun then collapseRunsAux p sep rest true
      else sep :: collapseRunsAux p sep rest true
    else c :: collapseRunsAux p sep rest false

def collapseRuns (p : Char → Bool) (sep : Char) (l : List Char) : List Char :=
  collapseRunsAux p sep l false

/-- Lower-case ASCII letters and digits. -/
def isLowerAlnum (c : Char) : Bool :=
  ('a' ≤ c && c ≤ 'z') || ('0' ≤ c && c ≤ '9')

/-- Characters kept by the filename filter in fetchComparisonData: lower-case
ASCII alphanumerics, underscore, and the CJK range 4e00-9fa5. -/
def keepQueryChar (c : Char) : Bool :=
  isLowerAlnum c || c == '_' || (0x4e00 ≤ c.toNat && c.toNat ≤ 0x9fa5)

/-- Normalization of the request text in fetchComparisonData
(src/services/geminiService.ts lines 247-249): trim, lower-case, collapse
whitespace runs to underscores, then delete every character outside the kept
class. Case mapping is ASCII (Char.toLower); non-ASCII letters are unaffected
by it and are deleted by the final filter either way. -/
def normalizeQuery (q : String) : String :=
  String.mk (((collapseRuns jsWs '_' ((jsTrim q.data).map Char.toLower))).filter keepQueryChar)

/-- Locale tag of the service (src/types.ts Language). -/
inductive Language
  | en
  | zh
deriving DecidableEq

def Language.code : Language → String
  | .en => "en"
  | .zh => "zh"

/-- Fixed folder namespace (src/services/geminiService.ts line 12). -/
def DATA_FOLDER : String := "sino-pulse/v1"

/-- Key derivation performed inline at src/services/geminiService.ts line 251:
the normalized request under the data folder and locale segment, with a .json
suffix. The spec names this operation deriveKey. -/
def deriveKey (q : String) (l : Language) : String :=
  DATA_FOLDER ++ "/" ++ l.code ++ "/" ++ normalizeQuery q ++ ".json"

/-- Normalization used inside getSmartTitles
(src/services/geminiService.ts line 125): trim, lower-case, then collapse every
run of characters outside a-z0-9 to a single underscore. -/
def normalizeKey (s : String) : String :=
  String.mk (collapseRuns (fun c => !(isLowerAlnum c)) '_' ((jsTrim s.data).map Char.toLower))

/-- Substring containment over character lists, modelling
String.prototype.includes. -/
def listContains (pat : List Char) : List Char → Bool
  | [] => pat == []
  | c :: rest => pat.isPrefixOf (c :: rest) || listContains pat rest

def strIncludes (s pat : String) : Bool :=
  listContains pat.data s.data

/-- Remove the first occurrence of pat, modelling the single-replacement form
of String.prototype.replace with an empty replacement, as in
filename.replace with a .json literal. -/
def removeFirstOcc (pat : List Char) : List Char → List Char
  | [] => []
  | c :: rest =>
    if pat.isPrefixOf (c :: rest) then (c :: rest).drop pat.length
    else c :: removeFirstOcc pat rest

def replaceFirst (s pat : String) : String :=
  String.mk (removeFirstOcc pat.data s.data)

/-- Last path segment: split on the slash and pop, with the empty string as the
JavaScript fallback for an empty result. -/
def lastSeg (s : String) : String :=
  ((s.splitOn "/").getLast?).getD ""

/-- Capitalize the first character, modelling charAt-toUpperCase plus slice. -/
def capitalizeWord (w : String) : String :=
  match w.data with
  | [] => ""
  | c :: rest => String.mk (Char.toUpper c :: rest)

/-- Prettified default name in the raw-listing fallback
(src/services/geminiService.ts line 201): split on underscores, capitalize each
word, join with spaces. -/
def prettify (nameWithoutExt : String) : String :=
  String.intercalate " " ((nameWithoutExt.splitOn "_").map capitalizeWord)

/-- Truthiness of an optional string under JavaScript rules: undefined and the
empty string are falsy. -/
def strFalsy (o : Option String) : Bool :=
  o.getD "" == ""

/-- Falsy-propagating disjunction of two optional strings, modelling the
JavaScript logical-or on possibly-undefined titles. -/
def jsOr (a b : Option String) : Option String :=
  if strFalsy a then b else a

/-- JavaScript logical-or against a plain default string. -/
def strOr (a : Option String) (d : String) : String :=
  if strFalsy a then d else a.getD ""

/-! ## Data model (src/types.ts and the index shapes in geminiService.ts) -/

/-- Value of one numeric slot of a sample after JSON parsing. The generation
backend is asked for numbers, but parsing alone does not rule out strings, so
the parsed shape keeps both cases. -/
inductive JVal
  | num (n : Int)
  | str (s : String)
deriving DecidableEq

/-- One sample of the time series (src/types.ts ComparisonDataPoint). -/
structure DataPoint where
  year : String
  usa : JVal
  china : JVal
deriving DecidableEq

/-- One citation (src/types.ts Source). -/
structure SourceRef where
  title : String
  url : String
deriving DecidableEq

/-- Parsed comparison document (src/types.ts ComparisonResponse without the
source tag, which the service adds by spreading). The data field is optional
because a stored or generated JSON document may lack it or carry null; a
present array, empty included, is truthy in JavaScript. -/
structure CompDoc where
  title : String
  titleEn : String
  titleZh : String
  category : String
  yAxisLabel : String
  data : Option (List DataPoint)
  summary : String
  detailedAnalysis : String
  futureOutlook : String
  sources : List SourceRef
deriving DecidableEq

/-- Provenance tag added by the service: r2 for archive reads, api for fresh
generation. -/
inductive SrcTag
  | r2
  | api
deriving DecidableEq

/-- One entry of the library index (geminiService.ts LibraryIndexItem). The
lastModified ISO string is represented by the epoch value its Date parse
yields, which is all the code ever uses it for. -/
structure LibraryIndexItem where
  key : String
  titleZh : String
  titleEn : String
  category : String
  lastModified : Int
deriving DecidableEq

/-- Parsed library-index document: either a well-formed object carrying an
items array, or valid JSON without one, on which a later items member access
throws. -/
inductive IndexVal
  | withItems (items : List LibraryIndexItem)
  | noItems
deriving DecidableEq

deriving instance DecidableEq for Except

/-- Outcome of a fetch against the public base URL whose body parses to α:
an HTTP success carrying the outcome of response.json(), a non-success status,
or a rejected fetch. -/
inductive PubFetch (α : Type)
  | ok (parse : Except String α)
  | status (code : Nat)
  | netErr (msg : String)
deriving DecidableEq

/-! ## Library index read (geminiService.ts lines 66-77) -/

/-- fetchLibraryIndex: read the index from the public URL; on a non-success
status or any exception (network failure, unparsable body) return the empty
index. -/
def fetchLibraryIndex : PubFetch IndexVal → IndexVal
  | .ok (.ok v) => v
  | .ok (.error _) => .withItems []
  | .status _ => .withItems []
  | .netErr _ => .withItems []

/-! ## Title repair heuristic (geminiService.ts lines 123-154, src/types.ts) -/

structure Preset where
  labelEn : String
  labelZh : String
  category : String
  query : String

/-- Static catalog of known topics (src/types.ts PRESET_QUERIES). -/
def PRESET_QUERIES : List Preset := [
  ⟨"GDP Growth (USD)", "GDP 增长 (美元)", "Economy",
    "GDP (Gross Domestic Product) in USD from 1945 to 2024"⟩,
  ⟨"GDP per Capita", "人均 GDP", "Economy",
    "GDP per capita in USD from 1945 to 2024"⟩,
  ⟨"Disposable Income", "人均可支配收入", "Economy",
    "Annual Disposable Income per Capita in USD from 1945 to 2024"⟩,
  ⟨"Population Growth", "人口增长", "Demographics",
    "Total Population from 1945 to 2024"⟩,
  ⟨"CO2 Emissions", "碳排放量", "Environment",
    "Annual CO2 emissions in billion tonnes from 1945 to 2023"⟩,
  ⟨"Military Spending", "军费开支", "Military",
    "Annual Military Expenditure in USD from 1945 to 2024"⟩,
  ⟨"Internet Users", "互联网用户", "Technology",
    "Number of Internet Users from 1945 to 2024"⟩,
  ⟨"Renewable Energy Capacity", "可再生能源装机容量", "Environment",
    "Installed Renewable Energy Capacity (GW) from 1945 to 2024"⟩,
  ⟨"Patent Applications", "年度专利申请", "Technology",
    "Annual Patent Applications filed from 1945 to 2023"⟩]

/-- getSmartTitles: repair missing or wrong-script titles from the preset
catalog. An absent or pure-ASCII Chinese title counts as invalid; titles are
replaced only when a preset matches, first by exact normalized key, then by
the fixed keyword overrides. -/
def getSmartTitles (filename : String) (rawTitleZh rawTitleEn : Option String) :
    Option String × Option String :=
  let coreKey := replaceFirst filename ".json"
  let normalizedCore := normalizeKey coreKey
  let m0 := PRESET_QUERIES.find? (fun p => normalizeKey p.query == normalizedCore)
  let matched := match m0 with
    | some p => some p
    | none =>
      if strIncludes coreKey "disposable_income" || strIncludes coreKey "income_per_capita" then
        PRESET_QUERIES.find? (fun p => strIncludes p.labelEn "Disposable Income")
      else none
  let isZhInvalid := match rawTitleZh with
    | none => true
    | some s => s.data.all (fun c => c.toNat ≤ 0x7f)
  let titleZh := match matched, isZhInvalid with
    | some p, true => some p.labelZh
    | _, _ => rawTitleZh
  let titleEn := match matched with
    | some p => if strFalsy rawTitleEn then some p.labelEn else rawTitleEn
    | none => rawTitleEn
  (titleZh, titleEn)

/-! ## Listing (geminiService.ts lines 157-225) -/

/-- Result row of listSavedComparisons (src/types.ts SavedComparison). Date
values are represented by their epoch value. -/
structure SavedComparison where
  key : String
  filename : String
  displayName : Option String
  titleZh : Option String
  titleEn : Option String
  category : Option String
  lastModified : Option Int
  size : Option Nat
deriving DecidableEq

/-- One object of a raw store listing (the AWS SDK ListObjectsV2 Contents
entry), with the optional fields the code reads. -/
structure S3Obj where
  key : Option String
  lastModified : Option Int
  size : Option Nat
deriving DecidableEq

/-- Stable insertion of one element into a descending-sorted list: the new,
later element goes after every element whose sort value is at least its own. -/
def insertDescBy (f : α → Int) (x : α) : List α → List α
  | [] => [x]
  | y :: ys => if f y < f x then x :: y :: ys else y :: insertDescBy f x ys

/-- Stable descending sort by an integer sort value, the unique output of the
JavaScript stable Array.prototype.sort under a subtraction comparator. -/
def sortDescBy (f : α → Int) (l : List α) : List α :=
  l.foldl (fun acc x => insertDescBy f x acc) []

/-- Mapping of one index item to a listing row
(geminiService.ts lines 164-177). -/
def mapIndexItem (language : Language) (item : LibraryIndexItem) : SavedComparison :=
  let filename := lastSeg item.key
  let t := getSmartTitles filename (some item.titleZh) (some item.titleEn)
  { key := item.key
    filename := filename
    displayName := match language with
      | .zh => jsOr t.1 t.2
      | .en => jsOr t.2 t.1
    titleZh := t.1
    titleEn := t.2
    category := some item.category
    lastModified := some item.lastModified
    size := none }

/-- Optional chaining endsWith on the object key: an absent key is falsy. -/
def endsWithJson (o : Option String) : Bool :=
  match o with
  | none => false
  | some s => ".json".data.isSuffixOf s.data

/-- Mapping of one raw listing object to a listing row
(geminiService.ts lines 196-218). -/
def mapS3Item (language : Language) (o : S3Obj) : SavedComparison :=
  let filename := lastSeg (o.key.getD "")
  let nameWithoutExt := replaceFirst filename ".json"
  let defaultName := prettify nameWithoutExt
  let t := getSmartTitles filename none (some defaultName)
  let finalDisplayName := match language with
    | .zh => strOr t.1 (strOr t.2 defaultName)
    | .en => strOr t.2 defaultName
  { key := o.key.getD ""
    filename := filename
    displayName := some finalDisplayName
    titleZh := some (strOr t.1 defaultName)
    titleEn := some (strOr t.2 defaultName)
    category := none
    lastModified := o.lastModified
    size := o.size }

/-- Raw-listing fallback of listSavedComparisons (geminiService.ts lines
180-219): a failed send propagates its exception, an absent Contents field
gives the empty list, otherwise the json objects are sorted newest first and
mapped. -/
def fallbackListing (language : Language)
    (listO : Except String (Option (List S3Obj))) :
    Except String (List SavedComparison) :=
  match listO with
  | .error e => .error e
  | .ok none => .ok []
  | .ok (some contents) =>
    .ok ((sortDescBy (fun o => o.lastModified.getD 0)
      (contents.filter (fun o => endsWithJson o.key))).map (mapS3Item language))

/-- Body of listSavedComparisons before its surrounding try-catch: an index
document without an items array makes the items member access throw; a
non-empty items array is sorted newest first and mapped; an empty one falls
back to the raw listing. -/
def listBody (language : Language) (idxO : PubFetch IndexVal)
    (listO : Except String (Option (List S3Obj))) :
    Except String (List SavedComparison) :=
  match fetchLibraryIndex idxO with
  | .noItems => .error "TypeError: items is not an array"
  | .withItems items =>
    if items.length > 0 then
      .ok ((sortDescBy (fun i => i.lastModified) items).map (mapIndexItem language))
    else fallbackListing language listO

/-- listSavedComparisons: the catch around the whole body maps every thrown
error to the empty list, so the operation never throws. -/
def listSavedComparisons (language : Language) (idxO : PubFetch IndexVal)
    (listO : Except String (Option (List S3Obj))) : List SavedComparison :=
  match listBody language idxO listO with
  | .ok l => l
  | .error _ => []

/-! ## Artifact read by key (geminiService.ts lines 227-238) -/

/-- Errors surfaced by the artifact read. The notFound constructor belongs to
the error taxonomy of the specification; the embedded code never produces it. -/
inductive RErr
  | thrown (msg : String)
  | network (msg : String)
  | notFound
deriving DecidableEq

/-- fetchSavedComparisonByKey: a single public-URL fetch; a success returns
the parsed document tagged r2; a non-success status throws a fixed error which
the catch rethrows; a parse or network failure is rethrown as well. There is
no authenticated fallback path in the source. -/
def fetchSavedComparisonByKey : PubFetch CompDoc → Except RErr (CompDoc × SrcTag)
  | .ok (.ok d) => .ok (d, .r2)
  | .ok (.error m) => .error (.thrown m)
  | .status _ => .error (.thrown "Failed to fetch saved file")
  | .netErr m => .error (.network m)

/-! ## Library index update (geminiService.ts lines 79-121) -/

/-- Pure update step of updateLibraryIndex (lines 98-104): find the first
entry with the same key and replace it in place, otherwise push the new entry
at the end. -/
def updateItems (items : List LibraryIndexItem) (n : LibraryIndexItem) :
    List LibraryIndexItem :=
  match items.findIdx? (fun i => i.key == n.key) with
  | some i => items.set i n
  | none => items ++ [n]

/-- Reference definition following the words of the specification for the
upsert, used only to compare against the source behaviour: remove every entry
whose key equals the new key or whose title equals a new title, then append
the new entry at the end. -/
def specUpsert (items : List LibraryIndexItem) (n : LibraryIndexItem) :
    List LibraryIndexItem :=
  (items.filter (fun i =>
    !(i.key == n.key || i.titleZh == n.titleZh || i.titleEn == n.titleEn))) ++ [n]

/-- Outcome of the authenticated read inside updateLibraryIndex: the send can
throw, the response body can be absent, or the body yields a parse outcome. -/
inductive GetIdxOutcome
  | sendFail (msg : String)
  | noBody
  | body (parse : Except String IndexVal)
deriving DecidableEq

/-- updateLibraryIndex as a function of its store outcomes, returning the
resolution of its promise together with the index document written back, if
any. The inner catch turns a failed or unparsable read into a fresh empty
index; the outer catch swallows every remaining error (a throwing items
access on a malformed document, or a failed put), so the promise always
resolves and a failure writes nothing. -/
def updateLibraryIndexRun (g : GetIdxOutcome) (put : Except String Unit)
    (n : LibraryIndexItem) :
    Except String Unit × Option (List LibraryIndexItem) :=
  let base : IndexVal := match g with
    | .sendFail _ => .withItems []
    | .noBody => .withItems []
    | .body (.error _) => .withItems []
    | .body (.ok v) => v
  match base with
  | .noItems => (.ok (), none)
  | .withItems items =>
    match put with
    | .error _ => (.ok (), none)
    | .ok _ => (.ok (), some (updateItems items n))

/-- uploadToR2 (lines 28-47): the catch logs and rethrows, so the outcome of
the put passes through unchanged. -/
def uploadToR2 (outcome : Except String Unit) : Except String Unit :=
  outcome

/-- Resolution of Promise.all over two void promises: it rejects when either
branch rejects and resolves otherwise. The first argument is reported on a
double rejection, which never arises here because the second branch never
rejects. -/
def promiseAll2 (a b : Except String Unit) : Except String Unit :=
  match a with
  | .error e => .error e
  | .ok _ => b

/-- Resolved state of the background handle built at geminiService.ts lines
373-382: Promise.all over the artifact upload and the index update. -/
def syncHandleRes (upload : Except String Unit) (g : GetIdxOutcome)
    (put : Except String Unit) (n : LibraryIndexItem) : Except String Unit :=
  promiseAll2 (uploadToR2 upload) (updateLibraryIndexRun g put n).1

/-! ## Interleaving of the background write-back

Promise.all starts the artifact upload and the index update together; at the
store level the upload is one body put, while the index update is a get
followed by a put of the updated document. The small-step model below runs
the two tasks under an arbitrary schedule. -/

/-- Store state during one write-back of one key: whether the artifact body
put has landed, and the current items of the stored index document. -/
structure WBState where
  bodyWritten : Bool
  items : List LibraryIndexItem
deriving DecidableEq

/-- Configuration of the two concurrent tasks: the store, whether the upload
has run, the program counter of the index task (0 before its read, 1 holding
its read snapshot, 2 after its put), and that snapshot. -/
structure WBConfig where
  st : WBState
  uploadDone : Bool
  idxPC : Nat
  snapshot : List LibraryIndexItem
deriving DecidableEq

def wbInit (items0 : List LibraryIndexItem) : WBConfig :=
  ⟨⟨false, items0⟩, false, 0, []⟩

/-- One scheduling step: run the next pending action of the chosen task, or do
nothing when that task is finished. -/
def wbStep (n : LibraryIndexItem) (c : WBConfig) : Bool → WBConfig
  | true =>
    if c.uploadDone then c
    else { c with st := { c.st with bodyWritten := true }, uploadDone := true }
  | false =>
    if c.idxPC == 0 then { c with snapshot := c.st.items, idxPC := 1 }
    else if c.idxPC == 1 then
      { c with st := { c.st with items := updateItems c.snapshot n }, idxPC := 2 }
    else c

def wbRun (n : LibraryIndexItem) (c : WBConfig) : List Bool → WBConfig
  | [] => c
  | b :: rest => wbRun n (wbStep n c b) rest

/-! ## Orchestrator (geminiService.ts lines 240-389) -/

/-- Parse outcome of the cached document fetched from the public URL: the
parsed JSON can be null or another falsy value, or a document. -/
inductive CacheVal
  | nullish
  | doc (d : CompDoc)
deriving DecidableEq

/-- Outcome of the generation backend call: a rejected request, a response
with falsy text, a response whose text JSON.parse rejects, or a parsed
document. -/
inductive GenOutcome
  | apiFail (msg : String)
  | emptyText
  | badJson (msg : String)
  | parsed (d : CompDoc)
deriving DecidableEq

/-- Errors propagated out of the orchestrator. The permissionDenied
constructor carries the PERMISSION_DENIED code matched by the caller in
src/App.tsx line 312. -/
inductive FErr
  | permissionDenied
  | apiError (msg : String)
  | emptyResponse
  | parseError (msg : String)
deriving DecidableEq

/-- External outcomes one orchestrator call runs against: the public-URL read
of the cached document, the generation call, the artifact body put, the
authenticated index read, the index put, and the current time used for the
lastModified stamp. -/
structure FetchEnv where
  cacheOutcome : PubFetch CacheVal
  gen : GenOutcome
  upload : Except String Unit
  idxGet : GetIdxOutcome
  idxPut : Except String Unit
  now : Int
deriving DecidableEq

/-- Read phase of fetchComparisonData (lines 254-272): skipped entirely on a
forced refresh; a success whose parsed document is truthy and has a truthy
data field is a hit; every other outcome, non-404 statuses and parse and
network failures included, falls through. -/
def readPhase (forceRefresh : Bool) (o : PubFetch CacheVal) : Option CompDoc :=
  if forceRefresh then none
  else match o with
    | .ok (.ok (.doc d)) => if d.data.isSome then some d else none
    | _ => none

/-- First title fallback after parsing (lines 359-367): an absent Chinese
title is filled from the display title in the zh locale, or from a preset
match on the normalized query otherwise. -/
def fixZh (lang : Language) (nq : String) (d : CompDoc) : CompDoc :=
  if d.titleZh == "" then
    match lang with
    | .zh => { d with titleZh := d.title }
    | .en =>
      match (getSmartTitles nq none none).1 with
      | some t => if t == "" then d else { d with titleZh := t }
      | none => d
  else d

/-- Second title fallback (line 368): an absent English title is filled from
the display title. -/
def fixEn (d : CompDoc) : CompDoc :=
  if d.titleEn == "" then { d with titleEn := d.title } else d

/-- Title fallback logic of fetchComparisonData (lines 357-368). -/
def fixTitles (lang : Language) (nq : String) (d : CompDoc) : CompDoc :=
  fixEn (fixZh lang nq d)

/-- Value returned by a successful orchestrator call: the document, the
provenance tag added by the spread, and the resolved state of the background
handle when one is returned. -/
structure FetchPayload where
  doc : CompDoc
  src : SrcTag
  uploadPromise : Option (Except String Unit)
deriving DecidableEq

/-- Result of one orchestrator call, together with the number of generation
backend invocations it performed. -/
structure FetchOut where
  result : Except FErr FetchPayload
  genCalls : Nat
deriving DecidableEq

/-- Generation phase of fetchComparisonData (lines 274-388): a backend
failure, empty response text, or unparsable text propagates as a hard
failure; a parsed document gets its titles repaired and is returned tagged
api, together with the background handle over the body upload and the index
update for the derived key. -/
def genPhase (query : String) (lang : Language) (env : FetchEnv) : FetchOut :=
  match env.gen with
  | .apiFail m => ⟨.error (.apiError m), 1⟩
  | .emptyText => ⟨.error .emptyResponse, 1⟩
  | .badJson m => ⟨.error (.parseError m), 1⟩
  | .parsed d0 =>
    let d1 := fixTitles lang (normalizeQuery query) d0
    let item : LibraryIndexItem :=
      ⟨deriveKey query lang, d1.titleZh, d1.titleEn, d1.category, env.now⟩
    ⟨.ok ⟨d1, .api, some (syncHandleRes env.upload env.idxGet env.idxPut item)⟩, 1⟩

/-- fetchComparisonData: read-through lookup, then generation. A hit is
returned at once tagged r2 with no background handle and no backend call. -/
def fetchComparisonData (query : String) (lang : Language) (forceRefresh : Bool)
    (env : FetchEnv) : FetchOut :=
  match readPhase forceRefresh env.cacheOutcome with
  | some d => ⟨.ok ⟨d, .r2, none⟩, 0⟩
  | none => genPhase query lang env

/-- Modelled from the spec: the checked-in service file defines
fetchComparisonData with three parameters, while its caller at
src/App.tsx line 273 passes a fourth isAdmin argument and line 312 matches a
thrown PERMISSION_DENIED error code, so the service revision implementing the
authorization gate is not among the source files. Following the words of the
specification, on a lookup miss or forced refresh with canGenerate false the
call fails with the permission error and the generation backend is not
invoked; the rest coincides with fetchComparisonData. -/
def fetchComparison (query : String) (lang : Language)
    (forceRefresh canGenerate : Bool) (env : FetchEnv) : FetchOut :=
  match readPhase forceRefresh env.cacheOutcome with
  | some d => ⟨.ok ⟨d, .r2, none⟩, 0⟩
  | none =>
    if canGenerate then genPhase query lang env
    else ⟨.error .permissionDenied, 0⟩

/-- Projection of a payload onto the parts handed to the caller synchronously:
the document and its provenance tag, without the background handle. -/
def payloadCore (p : FetchPayload) : CompDoc × SrcTag :=
  (p.doc, p.src)

/-- An index-read outcome on which the index document is missing (non-success
status), unreachable (network failure), or unparsable (body rejected by
JSON.parse). -/
def badIdxOutcome (o : PubFetch IndexVal) : Prop :=
  (∃ s, o = .status s) ∨ (∃ m, o = .netErr m) ∨ (∃ e, o = .ok (.error e))

/-! ## Shared concrete values for witnesses and counterexamples -/

def exA : LibraryIndexItem :=
  ⟨"sino-pulse/v1/zh/gdp_per_capita.json", "旧标题", "Old", "Economy", 1⟩

def exB : LibraryIndexItem :=
  ⟨"sino-pulse/v1/zh/other.json", "人均 GDP", "GDP per Capita", "Economy", 2⟩

def exN : LibraryIndexItem :=
  ⟨"sino-pulse/v1/zh/gdp_per_capita.json", "人均 GDP", "GDP per Capita", "Economy", 3⟩

/-- Generated document whose sample sequence is empty, violating the
non-empty-samples invariant of the specification. -/
def exEmptyDoc : CompDoc :=
  ⟨"中美对比", "Sino-US Comparison", "中美对比", "Economy", "USD",
    some [], "summary", "analysis", "outlook", []⟩

/-- Cached document with one sample. -/
def exCachedDoc : CompDoc :=
  ⟨"中美对比", "Sino-US Comparison", "中美对比", "Economy", "USD",
    some [⟨"1945", .num 1, .num 2⟩], "summary", "analysis", "outlook", []⟩

/-- Environment with a cache miss and a generation backend answering with the
empty-sample document. -/
def exEnvMiss : FetchEnv :=
  ⟨.status 404, .parsed exEmptyDoc, .ok (), .body (.ok (.withItems [])), .ok (), 7⟩

/-- Environment whose cache read hits the stored one-sample document. -/
def exEnvHit : FetchEnv :=
  ⟨.ok (.ok (.doc exCachedDoc)), .parsed exEmptyDoc, .ok (), .noBody, .ok (), 7⟩

/-! ## Helper lemmas -/

theorem updateItems_cons (i : LibraryIndexItem) (rest : List LibraryIndexItem)
    (n : LibraryIndexItem) :
    updateItems (i :: rest) n =
      if i.key == n.key then n :: rest else i :: updateItems rest n := by
  unfold updateItems
  rw [List.findIdx?_cons]
  by_cases h : (i.key == n.key)
  · simp [h]
  · simp only [h, if_neg, Bool.false_eq_true, if_false]
    cases hf : List.findIdx? (fun j => j.key == n.key) rest <;> simp [hf, List.set]

theorem updateItems_any_key (items : List LibraryIndexItem)
    (n : LibraryIndexItem) :
    (updateItems items n).any (fun i => i.key == n.key) = true := by
  induction items with
  | nil => simp [updateItems]
  | cons i rest ih =>
    rw [updateItems_cons]
    by_cases h : (i.key == n.key) <;> simp [h, ih]

theorem updateLibraryIndexRun_fst (g : GetIdxOutcome) (put : Except String Unit)
    (n : LibraryIndexItem) : (updateLibraryIndexRun g put n).1 = .ok () := by
  unfold updateLibraryIndexRun
  rcases g with m | _ | p
  · cases put <;> rfl
  · cases put <;> rfl
  · rcases p with m | v
    · cases put <;> rfl
    · rcases v with items | _
      · cases put <;> rfl
      · rfl

theorem readPhase_some_data (fr : Bool) (o : PubFetch CacheVal) (d : CompDoc)
    (h : readPhase fr o = some d) : d.data.isSome = true := by
  unfold readPhase at h
  by_cases hfr : fr = true
  · simp [hfr] at h
  · simp only [hfr, if_false, Bool.not_eq_true] at h
    rcases o with p | s | m
    · rcases p with m | v
      · simp at h
      · rcases v with _ | d0
        · simp at h
        · simp only at h
          by_cases hd : d0.data.isSome = true
          · rw [if_pos hd] at h
            cases h
            exact hd
          · rw [if_neg hd] at h
            cases h
    · simp at h
    · simp at h

theorem fixZh_data (l : Language) (nq : String) (d : CompDoc) :
    (fixZh l nq d).data = d.data := by
  unfold fixZh
  cases l <;> (repeat' split) <;> rfl

theorem fixEn_data (d : CompDoc) : (fixEn d).data = d.data := by
  unfold fixEn
  split <;> rfl

theorem fixTitles_data (l : Language) (nq : String) (d : CompDoc) :
    (fixTitles l nq d).data = d.data := by
  unfold fixTitles
  rw [fixEn_data, fixZh_data]

theorem fetchLibraryIndex_bad (o : PubFetch IndexVal) (h : badIdxOutcome o) :
    fetchLibraryIndex o = .withItems [] := by
  rcases h with ⟨s, rfl⟩ | ⟨m, rfl⟩ | ⟨e, rfl⟩ <;> rfl

/-! ## Claims -/

/-- Claim C1: for every request text and locale, the orchestrator entry point with
canGenerate false on a cache miss or forced refresh never invokes the
generation backend (zero backend calls) and fails with the permission error,
producing no partial result. -/
theorem claim1_permission_gate (q : String) (l : Language) (fr : Bool)
    (env : FetchEnv) (h : readPhase fr env.cacheOutcome = none) :
    fetchComparison q l fr false env = ⟨.error .permissionDenied, 0⟩ := by
  unfold fetchComparison
  rw [h]
  rfl

theorem claim1_witness :
    readPhase true exEnvHit.cacheOutcome = none ∧
    fetchComparison "GDP per capita" Language.zh true false exEnvHit =
      ⟨.error .permissionDenied, 0⟩ :=
  ⟨by decide,
    claim1_permission_gate "GDP per capita" Language.zh true exEnvHit (by decide)⟩

/-- Claim C8: key derivation is deterministic in the request text and locale, keys
agree whenever the normalized texts agree, and the request GDP per capita
with locale zh derives the key sino-pulse/v1/zh/gdp_per_capita.json. -/
theorem claim8_key_determinism (r1 r2 : String) (l : Language) :
    deriveKey r1 l = deriveKey r1 l ∧
    (normalizeQuery r1 = normalizeQuery r2 → deriveKey r1 l = deriveKey r2 l) ∧
    deriveKey "GDP per capita" Language.zh =
      "sino-pulse/v1/zh/gdp_per_capita.json" := by
  refine ⟨rfl, fun h => ?_, by decide⟩
  unfold deriveKey
  rw [h]

theorem claim8_witness :
    normalizeQuery "GDP  Per Capita" = normalizeQuery "gdp per capita" ∧
    deriveKey "GDP  Per Capita" Language.zh = deriveKey "gdp per capita" Language.zh :=
  ⟨by decide,
    (claim8_key_determinism "GDP  Per Capita" "gdp per capita" Language.zh).2.1 (by decide)⟩

/-- Claim C6 counterexample: a 404 from the public path is surfaced by
fetchSavedComparisonByKey as a generic thrown error, not as the NotFound
classification the claim requires, and no authenticated fallback exists in
the function to recover it. -/
theorem claim6_counterexample :
    fetchSavedComparisonByKey (.status 404) =
      .error (.thrown "Failed to fetch saved file") ∧
    fetchSavedComparisonByKey (.status 404) ≠ .error .notFound := by
  decide

/-- Claim C6 amended: an artifact read attempts only the public-URL path; a
successful parse is returned tagged r2; every other outcome, a 404 status
included, is surfaced as an error that is never the NotFound classification,
with no authenticated fallback; the index read degrades to the empty index on
a non-success status, network failure, or unparsable body. -/
theorem claim6_amended (o : PubFetch CompDoc) :
    (∀ d, o = .ok (.ok d) → fetchSavedComparisonByKey o = .ok (d, .r2)) ∧
    ((∀ d, o ≠ .ok (.ok d)) →
      ∃ e, fetchSavedComparisonByKey o = .error e ∧ e ≠ RErr.notFound) ∧
    (∀ (s : Nat) (m e : String),
      fetchLibraryIndex (.status s) = .withItems [] ∧
      fetchLibraryIndex (.netErr m) = .withItems [] ∧
      fetchLibraryIndex (.ok (.error e)) = .withItems []) := by
  refine ⟨?_, ?_, fun s m e => ⟨rfl, rfl, rfl⟩⟩
  · intro d hd
    subst hd
    rfl
  · intro hmiss
    rcases o with p | s | m
    · rcases p with m | v
      · exact ⟨.thrown m, rfl, by simp⟩
      · exact absurd rfl (hmiss v)
    · exact ⟨.thrown "Failed to fetch saved file", rfl, by simp⟩
    · exact ⟨.network m, rfl, by simp⟩

theorem claim6_witness :
    (∀ d, (PubFetch.status 404 : PubFetch CompDoc) ≠ .ok (.ok d)) ∧
    ∃ e, fetchSavedComparisonByKey (.status 404) = .error e ∧ e ≠ RErr.notFound :=
  ⟨(fun d h => by cases h),
    (claim6_amended (.status 404)).2.1 (fun d h => by cases h)⟩

/-- Claim C3 counterexample: with the artifact-body write succeeding and the
index-entry put failing, the background handle still resolves successfully
(synced) even though the index step failed and wrote nothing, refuting the
claim that the handle resolves to synced only when both steps succeed. -/
theorem claim3_counterexample :
    syncHandleRes (.ok ()) (.body (.ok (.withItems []))) (.error "index put failed") exN =
      .ok () ∧
    (updateLibraryIndexRun (.body (.ok (.withItems []))) (.error "index put failed") exN).2 =
      none := by
  decide

/-- Claim C3 amended: the background handle resolves successfully exactly when the
artifact-body write succeeds; the index update swallows every failure of its
own (its promise always resolves), so an index failure never surfaces in the
handle; and the document and provenance handed to the caller never depend on
the background outcomes. -/
theorem claim3_amended (u : Except String Unit) (g : GetIdxOutcome)
    (p : Except String Unit) (n : LibraryIndexItem) (q : String) (l : Language)
    (fr : Bool) (env : FetchEnv) :
    ((syncHandleRes u g p n = .ok ()) ↔ u = .ok ()) ∧
    (updateLibraryIndexRun g p n).1 = .ok () ∧
    (fetchComparisonData q l fr
        { env with upload := u, idxGet := g, idxPut := p }).result.map payloadCore =
      (fetchComparisonData q l fr env).result.map payloadCore := by
  refine ⟨?_, updateLibraryIndexRun_fst g p n, ?_⟩
  · unfold syncHandleRes promiseAll2 uploadToR2
    rcases u with e | u
    · simp
    · rw [updateLibraryIndexRun_fst]
  · rcases env with ⟨co, gen, up, ig, ip, now⟩
    unfold fetchComparisonData
    cases hr : readPhase fr co
    · unfold genPhase
      cases gen <;> rfl
    · rfl

/-- Claim C5 counterexample: a generation-backend response whose sample sequence is
empty violates the non-empty-samples invariant, yet the orchestrator returns
it to the caller as a success tagged api, with one backend call and no
validation failure. -/
theorem claim5_counterexample :
    (fetchComparisonData "GDP per capita" Language.en false exEnvMiss).result.toOption.map
        (fun pl => (pl.src, pl.doc.data)) = some (.api, some []) ∧
    (fetchComparisonData "GDP per capita" Language.en false exEnvMiss).genCalls = 1 := by
  decide

/-- Claim C5 amended: on the generation path the orchestrator fails hard, without
retrying, exactly on a rejected backend call, empty response text, or
unparsable response text; a response that parses is returned to the caller
tagged api with its sample sequence passed through unvalidated, and the
backend is invoked exactly once. -/
theorem claim5_amended (q : String) (l : Language) (fr : Bool) (env : FetchEnv)
    (h : readPhase fr env.cacheOutcome = none) :
    (env.gen = .emptyText →
      (fetchComparisonData q l fr env).result = .error .emptyResponse) ∧
    (∀ m, env.gen = .badJson m →
      (fetchComparisonData q l fr env).result = .error (.parseError m)) ∧
    (∀ m, env.gen = .apiFail m →
      (fetchComparisonData q l fr env).result = .error (.apiError m)) ∧
    (∀ d0, env.gen = .parsed d0 →
      ∃ pl, (fetchComparisonData q l fr env).result = .ok pl ∧
        pl.src = .api ∧ pl.doc.data = d0.data) ∧
    (fetchComparisonData q l fr env).genCalls = 1 := by
  unfold fetchComparisonData
  rw [h]
  unfold genPhase
  refine ⟨fun hg => by rw [hg], fun m hg => by rw [hg], fun m hg => by rw [hg],
    fun d0 hg => ?_, ?_⟩
  · rw [hg]
    exact ⟨_, rfl, rfl, fixTitles_data l (normalizeQuery q) d0⟩
  · cases env.gen <;> rfl

theorem claim5_witness :
    readPhase false exEnvMiss.cacheOutcome = none ∧
    ∃ pl, (fetchComparisonData "GDP per capita" Language.en false exEnvMiss).result = .ok pl ∧
      pl.src = .api ∧ pl.doc.data = exEmptyDoc.data :=
  ⟨by decide,
    (claim5_amended "GDP per capita" Language.en false exEnvMiss (by decide)).2.2.2.1
      exEmptyDoc rfl⟩

/-- Claim C9: a call with forceRefresh false whose lookup hits a stored document
with a present data field returns that document immediately, tagged r2, with
no background handle and zero backend calls; a call that falls through to a
successfully parsed generation returns the title-repaired document tagged
api together with a background handle, with one backend call. -/
theorem claim9_provenance (q : String) (l : Language) (env : FetchEnv) :
    (∀ d, env.cacheOutcome = .ok (.ok (.doc d)) → d.data.isSome = true →
      fetchComparisonData q l false env = ⟨.ok ⟨d, .r2, none⟩, 0⟩) ∧
    (∀ (fr : Bool) d0, readPhase fr env.cacheOutcome = none → env.gen = .parsed d0 →
      ∃ h, fetchComparisonData q l fr env =
        ⟨.ok ⟨fixTitles l (normalizeQuery q) d0, .api, some h⟩, 1⟩) := by
  constructor
  · intro d hco hd
    unfold fetchComparisonData readPhase
    rw [hco]
    simp [hd]
  · intro fr d0 hr hg
    unfold fetchComparisonData
    rw [hr]
    unfold genPhase
    rw [hg]
    exact ⟨_, rfl⟩

theorem claim9_witness :
    exEnvHit.cacheOutcome = .ok (.ok (.doc exCachedDoc)) ∧
    exCachedDoc.data.isSome = true ∧
    fetchComparisonData "GDP per capita" Language.zh false exEnvHit =
      ⟨.ok ⟨exCachedDoc, .r2, none⟩, 0⟩ :=
  ⟨rfl, by decide,
    (claim9_provenance "GDP per capita" Language.zh exEnvHit).1 exCachedDoc rfl (by decide)⟩

/-- Claim C10: a stored document fetched successfully whose parsed JSON lacks a
truthy data field is treated exactly like a 404 cache miss, with the backend
invoked once; and a document is served as an archive hit (tagged r2) only
when its data field is present. -/
theorem claim10_dataless_miss (q : String) (l : Language) (env : FetchEnv) :
    (∀ d, env.cacheOutcome = .ok (.ok (.doc d)) → d.data = none →
      fetchComparisonData q l false env =
        fetchComparisonData q l false { env with cacheOutcome := .status 404 } ∧
      (fetchComparisonData q l false env).genCalls = 1) ∧
    (∀ pl, (fetchComparisonData q l false env).result = .ok pl → pl.src = .r2 →
      pl.doc.data.isSome = true) := by
  constructor
  · intro d hco hd
    have hr : readPhase false env.cacheOutcome = none := by
      unfold readPhase
      rw [hco]
      simp [hd]
    have hr2 : readPhase false ({ env with cacheOutcome := .status 404 } :
        FetchEnv).cacheOutcome = none := by
      rfl
    constructor
    · unfold fetchComparisonData
      rw [hr, hr2]
      rcases env with ⟨co, gen, up, ig, ip, now⟩
      rfl
    · unfold fetchComparisonData
      rw [hr]
      unfold genPhase
      cases env.gen <;> rfl
  · intro pl hpl hsrc
    unfold fetchComparisonData at hpl
    cases hr : readPhase false env.cacheOutcome with
    | some d =>
      rw [hr] at hpl
      simp only [Except.ok.injEq] at hpl
      rw [← hpl]
      exact readPhase_some_data false env.cacheOutcome d hr
    | none =>
      rw [hr] at hpl
      unfold genPhase at hpl
      cases hg : env.gen <;> rw [hg] at hpl <;>
        first
          | exact Except.noConfusion hpl
          | (injection hpl with h2
             rw [← h2] at hsrc
             exact SrcTag.noConfusion hsrc)

/-- Claim C7: when the index document is missing, unreachable, or unparsable, the
listing operation behaves exactly as it does on an empty index, falling back
to the raw listing, and returns the empty sequence rather than throwing when
the fallback also fails or lists nothing. -/
theorem claim7_index_resilience (lang : Language) (idxO : PubFetch IndexVal)
    (listO : Except String (Option (List S3Obj))) (h : badIdxOutcome idxO) :
    listSavedComparisons lang idxO listO =
      listSavedComparisons lang (.ok (.ok (.withItems []))) listO ∧
    (∀ e, listO = .error e → listSavedComparisons lang idxO listO = []) ∧
    (listO = .ok none → listSavedComparisons lang idxO listO = []) := by
  have hb : listBody lang idxO listO = fallbackListing lang listO := by
    unfold listBody
    rw [fetchLibraryIndex_bad idxO h]
    rfl
  refine ⟨?_, fun e he => ?_, fun he => ?_⟩
  · unfold listSavedComparisons
    rw [hb]
    rfl
  · unfold listSavedComparisons
    rw [hb, he]
    rfl
  · unfold listSavedComparisons
    rw [hb, he]
    rfl

theorem claim7_witness :
    badIdxOutcome (PubFetch.ok (.error "unexpected token")) ∧
    listSavedComparisons Language.en (.ok (.error "unexpected token")) (.ok none) =
      listSavedComparisons Language.en (.ok (.ok (.withItems []))) (.ok none) :=
  ⟨Or.inr (Or.inr ⟨"unexpected token", rfl⟩),
    (claim7_index_resilience Language.en (.ok (.error "unexpected token")) (.ok none)
      (Or.inr (Or.inr ⟨"unexpected token", rfl⟩))).1⟩

/-- Claim C2 counterexample: under the schedule that runs both index-update steps
before the upload step, the store reaches a state whose index contains an
entry for the key while the artifact body is not yet written, refuting the
claimed write-then-index ordering of the Promise.all write-back. -/
theorem claim2_counterexample :
    ((wbRun exN (wbInit []) [false, false]).st.items.any
      (fun i => i.key == exN.key)) = true ∧
    (wbRun exN (wbInit []) [false, false]).st.bodyWritten = false := by
  decide

theorem wbStep_inv (n : LibraryIndexItem) (c : WBConfig) (b : Bool)
    (h1 : c.uploadDone = true → c.st.bodyWritten = true)
    (h2 : c.idxPC = 2 → (c.st.items.any (fun i => i.key == n.key)) = true) :
    ((wbStep n c b).uploadDone = true → (wbStep n c b).st.bodyWritten = true) ∧
    ((wbStep n c b).idxPC = 2 →
      ((wbStep n c b).st.items.any (fun i => i.key == n.key)) = true) := by
  cases b
  · simp only [wbStep]
    by_cases h0 : (c.idxPC == 0) = true
    · rw [if_pos h0]
      exact ⟨h1, fun hpc => absurd hpc (by simp)⟩
    · rw [if_neg h0]
      by_cases hone : (c.idxPC == 1) = true
      · rw [if_pos hone]
        exact ⟨h1, fun _ => updateItems_any_key c.snapshot n⟩
      · rw [if_neg hone]
        exact ⟨h1, h2⟩
  · simp only [wbStep]
    by_cases hd : c.uploadDone = true
    · rw [if_pos hd]
      exact ⟨h1, h2⟩
    · rw [if_neg hd]
      exact ⟨fun _ => rfl, h2⟩

theorem wbRun_inv (n : LibraryIndexItem) (sched : List Bool) (c : WBConfig)
    (h1 : c.uploadDone = true → c.st.bodyWritten = true)
    (h2 : c.idxPC = 2 → (c.st.items.any (fun i => i.key == n.key)) = true) :
    ((wbRun n c sched).uploadDone = true →
      (wbRun n c sched).st.bodyWritten = true) ∧
    ((wbRun n c sched).idxPC = 2 →
      ((wbRun n c sched).st.items.any (fun i => i.key == n.key)) = true) := by
  induction sched generalizing c with
  | nil => exact ⟨h1, h2⟩
  | cons b rest ih =>
    have hs := wbStep_inv n c b h1 h2
    exact ih (wbStep n c b) hs.1 hs.2

/-- Claim C2 amended: the body write and the index upsert are started concurrently
by Promise.all with no ordering between them, and an interleaving makes the
index entry visible before the body is written; what does hold is that once
both concurrent steps have completed, the body is written and the index
contains an entry for the key. -/
theorem claim2_amended (items0 : List LibraryIndexItem) (n : LibraryIndexItem)
    (sched : List Bool)
    (hu : (wbRun n (wbInit items0) sched).uploadDone = true)
    (hi : (wbRun n (wbInit items0) sched).idxPC = 2) :
    (wbRun n (wbInit items0) sched).st.bodyWritten = true ∧
    ((wbRun n (wbInit items0) sched).st.items.any
      (fun i => i.key == n.key)) = true := by
  have h := wbRun_inv n sched (wbInit items0)
    (fun hc => Bool.noConfusion hc) (fun hc => absurd hc (by simp [wbInit]))
  exact ⟨h.1 hu, h.2 hi⟩

theorem claim2_witness :
    (wbRun exN (wbInit []) [true, false, false]).uploadDone = true ∧
    (wbRun exN (wbInit []) [true, false, false]).idxPC = 2 ∧
    ((wbRun exN (wbInit []) [true, false, false]).st.bodyWritten = true ∧
      ((wbRun exN (wbInit []) [true, false, false]).st.items.any
        (fun i => i.key == exN.key)) = true) :=
  ⟨by decide, by decide, claim2_amended [] exN [true, false, false] (by decide) (by decide)⟩

/-- Claim C4 counterexample: upserting an entry over an index holding one entry
with the same key and another entry with the same titles but a different key
replaces the first in place and keeps the title-matching entry, giving a
result different from the remove-key-or-title-then-append behaviour the claim
states. -/
theorem claim4_counterexample :
    updateItems [exA, exB] exN = [exN, exB] ∧
    specUpsert [exA, exB] exN = [exN] ∧
    updateItems [exA, exB] exN ≠ specUpsert [exA, exB] exN := by
  decide

/-- Claim C4 amended: when the index holds at most one entry per key, upserting
replaces the first entry with the same key in place, or appends at the end
when none exists: every entry with a different key, a title-matching one
included, is kept unchanged in order, and afterwards exactly the new entry
carries the key. -/
theorem claim4_amended (items : List LibraryIndexItem) (n : LibraryIndexItem)
    (h : items.countP (fun i => i.key == n.key) ≤ 1) :
    (updateItems items n).filter (fun i => !(i.key == n.key)) =
      items.filter (fun i => !(i.key == n.key)) ∧
    (updateItems items n).filter (fun i => i.key == n.key) = [n] := by
  revert h
  induction items with
  | nil =>
    intro h
    constructor
    · simp [updateItems]
    · simp [updateItems]
  | cons i rest ih =>
    intro h
    rw [updateItems_cons]
    by_cases hk : (i.key == n.key) = true
    · rw [if_pos hk]
      have hc : rest.countP (fun j => j.key == n.key) = 0 := by
        simp only [List.countP_cons, hk, if_true] at h
        omega
      have hall : ∀ a ∈ rest, ¬((a.key == n.key) = true) := by
        intro a ha
        have := List.countP_eq_zero.mp hc a ha
        simpa using this
      have hnil : rest.filter (fun j => j.key == n.key) = [] :=
        List.filter_eq_nil_iff.mpr hall
      constructor
      · simp only [List.filter_cons, hk, Bool.not_true, if_false,
          beq_self_eq_true, Bool.not_eq_true]
        rfl
      · simp only [List.filter_cons, beq_self_eq_true, if_true, hk, hnil]
    · rw [if_neg hk]
      have h2 : rest.countP (fun j => j.key == n.key) ≤ 1 := by
        simp only [List.countP_cons, hk, if_false] at h
        omega
      obtain ⟨ih1, ih2⟩ := ih h2
      constructor
      · simp only [List.filter_cons, hk, Bool.not_false, if_true, Bool.not_eq_true]
        rw [ih1]
      · simp only [List.filter_cons, hk, if_false]
        exact ih2

theorem claim4_witness :
    ([exA, exB].countP (fun i => i.key == exN.key) ≤ 1) ∧
    ((updateItems [exA, exB] exN).filter (fun i => !(i.key == exN.key)) =
      [exA, exB].filter (fun i => !(i.key == exN.key)) ∧
    (updateItems [exA, exB] exN).filter (fun i => i.key == exN.key) = [exN]) :=
  ⟨by decide, claim4_amended [exA, exB] exN (by decide)⟩

theorem claim10_witness :
    (let exDataless : CompDoc := { exCachedDoc with data := none };
    let envD : FetchEnv := { exEnvHit with cacheOutcome := .ok (.ok (.doc exDataless)) };
    fetchComparisonData "GDP per capita" Language.zh false envD =
      fetchComparisonData "GDP per capita" Language.zh false
        { envD with cacheOutcome := .status 404 } ∧
    (fetchComparisonData "GDP per capita" Language.zh false envD).genCalls = 1) :=
  (claim10_dataless_miss "GDP per capita" Language.zh
    { exEnvHit with cacheOutcome := .ok (.ok (.doc { exCachedDoc with data := none })) }).1
    { exCachedDoc with data := none } rfl rfl

end SinoPulse
